import Mathlib

/-!
# Verification of the simple-pdf-generator core

Shallow embedding of the structural-extraction and rendering pipeline of
the repository (files `utils/text_processor.py` and `utils/pdf_generator.py`),
together with proofs and refutations of the specified properties.

Python strings are modelled as Lean `String` (a list of Unicode scalar
values); Python `list` values as Lean `List`.
-/

/-! ## Python string primitives used by the sources -/

/-- The whitespace characters stripped by Python `str.strip()` on ASCII text
(space, tab, newline, carriage return, vertical tab, form feed). -/
def isPySpace (c : Char) : Bool :=
  c = ' ' || c = '\t' || c = '\n' || c = '\r' || c = '\x0b' || c = '\x0c'

/-- Python `line.strip()`: remove leading and trailing whitespace. -/
def pyStrip (s : String) : String :=
  ⟨((s.data.dropWhile isPySpace).reverse.dropWhile isPySpace).reverse⟩

/-- Python `s.startswith(pre)`. -/
def pyStartsWith (s pre : String) : Bool :=
  pre.data.isPrefixOf s.data

/-- Python `s[n:]`: drop the first `n` characters. -/
def pyDrop (s : String) (n : Nat) : String :=
  ⟨s.data.drop n⟩

/-- Python `' '.join(parts)`. -/
def joinSpace : List String → String
  | [] => ""
  | [s] => s
  | s :: rest => s ++ " " ++ joinSpace rest

/-- Split a character list at each newline, keeping empty pieces
(the character-level core of Python `text.split('\n')`). -/
def linesOf : List Char → List (List Char)
  | [] => [[]]
  | c :: cs =>
    if c = '\n' then [] :: linesOf cs
    else
      match linesOf cs with
      | [] => [[c]]
      | l :: ls => (c :: l) :: ls

/-- Python `text.split('\n')`. -/
def splitLines (s : String) : List String :=
  (linesOf s.data).map (fun cs => ⟨cs⟩)

/-- The loop `for char in line: if char == '#': level += 1 else: break`
from `extract_structure`: the number of leading `#` characters. -/
def countLeadingHashes (s : String) : Nat :=
  (s.data.takeWhile (fun c => c = '#')).length

/-- Character-level core of Python `text.replace(needle, repl)`:
replace each leftmost non-overlapping occurrence of `needle`.  Every step
consumes at least one character, so the scan is driven by a fuel counter
initialised to the length of the text in `replaceList`. -/
def replaceListAux (needle repl : List Char) : Nat → List Char → List Char
  | 0, l => l
  | _ + 1, [] => []
  | fuel + 1, c :: cs =>
    if needle.isPrefixOf (c :: cs) ∧ needle ≠ [] then
      repl ++ replaceListAux needle repl fuel (cs.drop (needle.length - 1))
    else
      c :: replaceListAux needle repl fuel cs

/-- Replace each leftmost non-overlapping occurrence of `needle` by `repl`. -/
def replaceList (needle repl : List Char) (l : List Char) : List Char :=
  replaceListAux needle repl l.length l

/-- Python `text.replace(needle, repl)` for a nonempty needle. -/
def pyReplace (text needle repl : String) : String :=
  ⟨replaceList needle.data repl.data text.data⟩

/-! ## The structure extractor (`utils/text_processor.py`, `extract_structure`) -/

/-- The dictionary returned by `extract_structure`: three lists keyed
`'headings'`, `'paragraphs'` and `'lists'`.  A heading dict
`{'level': l, 'text': t}` is modelled as the pair `(l, t)`. -/
structure MDStructure where
  headings : List (Nat × String)
  paragraphs : List String
  lists : List (List String)
deriving DecidableEq, Repr

/-- One iteration of the `for line in lines` loop of `extract_structure`.
The accumulator carries the structure built so far together with the loop
variables `current_paragraph`, `in_list` and `list_items`. -/
def extractStep (acc : MDStructure × List String × Bool × List String)
    (rawLine : String) : MDStructure × List String × Bool × List String :=
  match acc with
  | (st, current_paragraph, in_list, list_items) =>
    let line := pyStrip rawLine
    if pyStartsWith line "#" then
      -- flush any open paragraph, then any open list, then emit the heading
      let st1 := if current_paragraph.isEmpty then st else
        { st with paragraphs := st.paragraphs ++ [joinSpace current_paragraph] }
      let st2 := if in_list then { st1 with lists := st1.lists ++ [list_items] } else st1
      let level := countLeadingHashes line
      ({ st2 with headings := st2.headings ++ [(level, pyStrip (pyDrop line level))] },
        [], false, if in_list then [] else list_items)
    else if pyStartsWith line "- " || pyStartsWith line "* " || pyStartsWith line "+ " then
      -- flush any open paragraph, open a list if needed, append the item
      let st1 := if current_paragraph.isEmpty then st else
        { st with paragraphs := st.paragraphs ++ [joinSpace current_paragraph] }
      (st1, [], true, list_items ++ [pyStrip (pyDrop line 2)])
    else if line = "" then
      -- a blank line closes any open paragraph or list
      let st1 := if current_paragraph.isEmpty then st else
        { st with paragraphs := st.paragraphs ++ [joinSpace current_paragraph] }
      let st2 := if in_list then { st1 with lists := st1.lists ++ [list_items] } else st1
      (st2, [], false, if in_list then [] else list_items)
    else
      -- regular text: close any open list, accumulate into the paragraph
      let st2 := if in_list then { st with lists := st.lists ++ [list_items] } else st
      (st2, current_paragraph ++ [line], false, if in_list then [] else list_items)

/-- `extract_structure` from `utils/text_processor.py`: scan the lines,
then flush any remaining paragraph and list. -/
def extract_structure (text : String) : MDStructure :=
  match (splitLines text).foldl extractStep (⟨[], [], []⟩, [], false, []) with
  | (st, current_paragraph, in_list, list_items) =>
    let st1 := if current_paragraph.isEmpty then st else
      { st with paragraphs := st.paragraphs ++ [joinSpace current_paragraph] }
    if in_list then { st1 with lists := st1.lists ++ [list_items] } else st1

/-! ## The ordered block sequence described by the specification

The specification (section 4.1) presents extraction as producing a single
ordered sequence of typed blocks.  The following definitions follow the
specification's words; they are compared against `extract_structure`,
whose output is translated from the source. -/

/-- A typed content block as described by the specification's data model. -/
inductive Block where
  | heading (level : Nat) (text : String)
  | paragraph (text : String)
  | list (items : List String)
deriving DecidableEq, Repr

/-- One scan step of the specification's extractor: identical line
classification and state transitions to `extractStep`, but blocks are
emitted into one ordered sequence. -/
def specStep (acc : List Block × List String × Bool × List String)
    (rawLine : String) : List Block × List String × Bool × List String :=
  match acc with
  | (bs, current_paragraph, in_list, list_items) =>
    let line := pyStrip rawLine
    if pyStartsWith line "#" then
      let bs1 := if current_paragraph.isEmpty then bs else
        bs ++ [Block.paragraph (joinSpace current_paragraph)]
      let bs2 := if in_list then bs1 ++ [Block.list list_items] else bs1
      let level := countLeadingHashes line
      (bs2 ++ [Block.heading level (pyStrip (pyDrop line level))],
        [], false, if in_list then [] else list_items)
    else if pyStartsWith line "- " || pyStartsWith line "* " || pyStartsWith line "+ " then
      let bs1 := if current_paragraph.isEmpty then bs else
        bs ++ [Block.paragraph (joinSpace current_paragraph)]
      (bs1, [], true, list_items ++ [pyStrip (pyDrop line 2)])
    else if line = "" then
      let bs1 := if current_paragraph.isEmpty then bs else
        bs ++ [Block.paragraph (joinSpace current_paragraph)]
      let bs2 := if in_list then bs1 ++ [Block.list list_items] else bs1
      (bs2, [], false, if in_list then [] else list_items)
    else
      let bs2 := if in_list then bs ++ [Block.list list_items] else bs
      (bs2, current_paragraph ++ [line], false, if in_list then [] else list_items)

/-- The specification's extractor contract
`extract(text) -> ordered sequence of Block`. -/
def specOrderedExtract (text : String) : List Block :=
  match (splitLines text).foldl specStep ([], [], false, []) with
  | (bs, current_paragraph, in_list, list_items) =>
    let bs1 := if current_paragraph.isEmpty then bs else
      bs ++ [Block.paragraph (joinSpace current_paragraph)]
    if in_list then bs1 ++ [Block.list list_items] else bs1

/-- The headings of a block sequence, in order. -/
def headingsOf (bs : List Block) : List (Nat × String) :=
  bs.filterMap fun b => match b with
    | Block.heading l t => some (l, t)
    | _ => none

/-- The paragraph texts of a block sequence, in order. -/
def parasOf (bs : List Block) : List String :=
  bs.filterMap fun b => match b with
    | Block.paragraph t => some t
    | _ => none

/-- The item lists of a block sequence, in order. -/
def listsOf (bs : List Block) : List (List String) :=
  bs.filterMap fun b => match b with
    | Block.list items => some items
    | _ => none

/-- Group an ordered block sequence by kind, as the code's dictionary does. -/
def groupStructure (bs : List Block) : MDStructure :=
  ⟨headingsOf bs, parasOf bs, listsOf bs⟩

/-- Recognise a heading block. -/
def isHeadingBlock : Block → Bool
  | Block.heading _ _ => true
  | _ => false

/-- Recognise a paragraph block. -/
def isParagraphBlock : Block → Bool
  | Block.paragraph _ => true
  | _ => false

/-- Recognise a list block. -/
def isListBlock : Block → Bool
  | Block.list _ => true
  | _ => false

/-! ## The document renderer (`utils/pdf_generator.py`) -/

/-- The accidental dictionary key produced by the source lines
`''': "'",  # Replace smart quotes` and `''': "'",`: the three ASCII
apostrophes open a triple-quoted Python string, so the key is the raw text
between the two `'''` delimiters — including the in-line comment, the line
break and the next line's indentation. -/
def smartQuoteKey : String := ": \"'\",  # Replace smart quotes\n            "

/-- `self.char_replacements` with its insertion order.  The two `'"': '"'`
entries collapse to one dictionary entry; all other keys are single
non-ASCII characters except `smartQuoteKey`. -/
def char_replacements : List (String × String) :=
  [("•", "-"),
   ("–", "-"),
   ("—", "-"),
   (smartQuoteKey, "'"),
   ("\"", "\""),
   ("…", "..."),
   ("≤", "<="),
   ("≥", ">="),
   ("©", "(c)"),
   ("®", "(R)"),
   ("™", "(TM)"),
   ("°", " degrees"),
   ("±", "+/-"),
   ("×", "x"),
   ("÷", "/"),
   ("½", "1/2"),
   ("¼", "1/4"),
   ("¾", "3/4")]

/-- The second loop of `PDFGenerator.sanitize_text`: keep code points
below 128 and send any remaining character through
`self.char_replacements.get(char, ' ')`. -/
def asciiScan (t : String) : String :=
  ⟨t.data.flatMap fun c =>
    if c.toNat < 128 then [c]
    else ((List.lookup (⟨[c]⟩ : String) char_replacements).getD " ").data⟩

/-- `PDFGenerator.sanitize_text`: first apply every table replacement over
the whole string in dictionary order, then run the per-character scan. -/
def sanitize_text (text : String) : String :=
  asciiScan (char_replacements.foldl (fun acc kv => pyReplace acc kv.1 kv.2) text)

/-- All characters of a string are ASCII. -/
def allAscii (s : String) : Bool :=
  s.data.all fun c => decide (c.toNat < 128)

/-- `smartQuoteKey` with its final space replaced by `é`: an input whose
sanitized form is exactly `smartQuoteKey`. -/
def almostSmartQuoteKey : String := ": \"'\",  # Replace smart quotes\n           é"

/-- `self.heading_sizes`: font sizes for heading levels 1-6. -/
def heading_sizes : List (Int × Nat) :=
  [(1, 24), (2, 20), (3, 16), (4, 14), (5, 12), (6, 12)]

/-- The size selection `self.heading_sizes.get(level, 12)` performed by
`PDFGenerator.add_heading`. -/
def headingFontSize (level : Int) : Nat :=
  (List.lookup level heading_sizes).getD 12

/-- The sequence of `add_heading` / `add_paragraph` / `add_list` calls made
by `PDFGenerator.add_content_from_structure`: all headings first, then all
paragraphs, then all lists. -/
def add_content_from_structure (st : MDStructure) : List Block :=
  st.headings.map (fun h => Block.heading h.1 h.2)
    ++ st.paragraphs.map Block.paragraph
    ++ st.lists.map Block.list

/-- The two fixed lines of the fallback document written by
`PDFGenerator.generate_pdf` when `self.pdf.output` raises. -/
def fallbackLines : List String :=
  ["Error generating PDF with the provided content.",
   "The content may contain unsupported characters."]

/-- `PDFGenerator.generate_pdf`, with the backend write abstracted as a
fallible function `out` from the document's lines to a result: try to write
the document; on failure, write the fixed two-line fallback document to the
same path, propagating only a failure of that second write.  The returned
pair records the path and the lines that were successfully written. -/
def generate_pdf (out : List String → Except String Unit) (doc : List String)
    (output_path : String) : Except String (String × List String) :=
  match out doc with
  | Except.ok _ => Except.ok (output_path, doc)
  | Except.error _ =>
    match out fallbackLines with
    | Except.ok _ => Except.ok (output_path, fallbackLines)
    | Except.error e => Except.error e

/-- A backend write that fails on every document except the fixed fallback
document: a content failure with a writable destination. -/
def outContentBad : List String → Except String Unit :=
  fun ls => if ls = fallbackLines then Except.ok () else Except.error "content"

/-- The loop invariant behind claim C10: every emitted list is non-empty,
every emitted paragraph text is non-empty, every accumulated paragraph
line is non-empty, and an open list has at least one item. -/
def InvAcc : MDStructure × List String × Bool × List String → Prop
  | (st, cp, il, li) =>
    (∀ l ∈ st.lists, l ≠ []) ∧ (∀ p ∈ st.paragraphs, p ≠ "") ∧
    (∀ c ∈ cp, c ≠ "") ∧ (il = true → li ≠ [])

/-- View a spec-extractor state as the corresponding code-extractor state:
the emitted block sequence grouped by kind, the loop variables unchanged. -/
def mapAcc (s : List Block × List String × Bool × List String) :
    MDStructure × List String × Bool × List String :=
  (groupStructure s.1, s.2.1, s.2.2.1, s.2.2.2)

/-! ## Sanitization lemmas -/

lemma lookup_allAscii (l : List (String × String))
    (hl : ∀ kv ∈ l, allAscii kv.2 = true) (k v : String)
    (hv : List.lookup k l = some v) : allAscii v = true := by
  induction l with
  | nil => simp [List.lookup] at hv
  | cons a l ih =>
    rw [List.lookup] at hv
    split at hv
    · exact (Option.some.inj hv) ▸ hl a (by simp)
    · exact ih (fun kv hkv => hl kv (by simp [hkv])) hv

lemma char_replacements_values_ascii :
    ∀ kv ∈ char_replacements, allAscii kv.2 = true := by decide

lemma asciiScan_ascii (t : String) : allAscii (asciiScan t) = true := by
  rw [asciiScan, allAscii, List.all_eq_true]
  intro c hc
  rw [List.mem_flatMap] at hc
  obtain ⟨d, _, hcd⟩ := hc
  by_cases hd : d.toNat < 128
  · rw [if_pos hd] at hcd
    simp only [List.mem_singleton] at hcd
    subst hcd
    exact decide_eq_true hd
  · rw [if_neg hd] at hcd
    rcases hlook : List.lookup (⟨[d]⟩ : String) char_replacements with _ | v
    · rw [hlook] at hcd
      simp only [Option.getD] at hcd
      have : c = ' ' := by simpa using hcd
      subst this
      rfl
    · rw [hlook] at hcd
      have hv := lookup_allAscii char_replacements char_replacements_values_ascii _ v hlook
      rw [allAscii, List.all_eq_true] at hv
      exact hv c hcd

/-! ## Claim theorems about sanitization -/

/-- Claim C3: every character of the output of `sanitize_text` has code
point below 128, for every input string. -/
theorem sanitize_text_ascii (s : String) : allAscii (sanitize_text s) = true := by
  rw [sanitize_text]
  exact asciiScan_ascii _

/-- Claim C4 (code bug): sanitization is not idempotent.  Sanitizing
`almostSmartQuoteKey` (pure text except for one `é`) yields exactly the
accidental ASCII table key `smartQuoteKey`, and sanitizing that again
collapses it to a single apostrophe. -/
theorem sanitize_text_not_idempotent :
    sanitize_text almostSmartQuoteKey = smartQuoteKey ∧
    sanitize_text smartQuoteKey = "'" ∧
    sanitize_text (sanitize_text almostSmartQuoteKey) ≠
      sanitize_text almostSmartQuoteKey := by
  decide

/-- Claim C5: `sanitize_text "café – 50%"` replaces the en dash with `-`
via the table and the out-of-table `é` with a single space, giving exactly
`"caf  - 50%"`. -/
theorem sanitize_text_cafe : sanitize_text "café – 50%" = "caf  - 50%" := by
  decide

/-- Claim C9 (code bug): sanitization is not the identity on ASCII input.
The replacement table accidentally contains the pure-ASCII key
`smartQuoteKey` (from the mis-quoted smart-quote entries), which the first
sanitization pass rewrites to an apostrophe. -/
theorem sanitize_text_not_id_on_ascii :
    allAscii smartQuoteKey = true ∧
    sanitize_text smartQuoteKey = "'" ∧
    smartQuoteKey ≠ "'" := by
  decide

/-! ## Claim theorems about extraction order -/

/-- Claim C1 (corrected): the extractor's output does not preserve source
order across block kinds.  The input `"- x\ny\n## H"` (list, paragraph,
heading) and the input `"## H\ny\n\n- x"` (heading, paragraph, list) have
different ordered block sequences under the specification's reading, yet
`extract_structure` returns the identical type-grouped dictionary for
both, so its output cannot represent the claimed ordered sequence. -/
theorem extract_structure_order_collision :
    extract_structure "- x\ny\n## H" = extract_structure "## H\ny\n\n- x" ∧
    specOrderedExtract "- x\ny\n## H" =
      [Block.list ["x"], Block.paragraph "y", Block.heading 2 "H"] ∧
    specOrderedExtract "## H\ny\n\n- x" =
      [Block.heading 2 "H", Block.paragraph "y", Block.list ["x"]] := by
  decide

/-- Claim C1 (amended): for the input `"- x\ny\n## H"`, extraction yields
the type-grouped structure with headings `[(2, "H")]`, paragraphs `["y"]`
and lists `[["x"]]` — the three claimed blocks, each kind in source order
within its own group, with the cross-kind interleaving not represented. -/
theorem extract_structure_mixed_input :
    extract_structure "- x\ny\n## H" = ⟨[(2, "H")], ["y"], [["x"]]⟩ := by
  decide

/-- Claim C2 (corrected): `add_content_from_structure` does not replay the
blocks in source-sequence order.  For the extracted structure of
`"- x\ny\n## H"` it replays heading, paragraph, list, while the source
order of the blocks is list, paragraph, heading. -/
theorem add_content_reorders_blocks :
    add_content_from_structure (extract_structure "- x\ny\n## H") =
      [Block.heading 2 "H", Block.paragraph "y", Block.list ["x"]] ∧
    specOrderedExtract "- x\ny\n## H" =
      [Block.list ["x"], Block.paragraph "y", Block.heading 2 "H"] ∧
    add_content_from_structure (extract_structure "- x\ny\n## H") ≠
      specOrderedExtract "- x\ny\n## H" := by
  decide

/-! ## Claim theorems about the renderer -/

/-- Claim C7: `add_heading` selects font size 12 for every heading level
outside 1..6; the `dict.get` lookup is total, so no exception can arise
from it. -/
theorem headingFontSize_fallback (level : Int) (h : level < 1 ∨ 6 < level) :
    headingFontSize level = 12 := by
  have h1 : (level == (1 : Int)) = false := by rw [beq_eq_false_iff_ne]; omega
  have h2 : (level == (2 : Int)) = false := by rw [beq_eq_false_iff_ne]; omega
  have h3 : (level == (3 : Int)) = false := by rw [beq_eq_false_iff_ne]; omega
  have h4 : (level == (4 : Int)) = false := by rw [beq_eq_false_iff_ne]; omega
  have h5 : (level == (5 : Int)) = false := by rw [beq_eq_false_iff_ne]; omega
  have h6 : (level == (6 : Int)) = false := by rw [beq_eq_false_iff_ne]; omega
  simp [headingFontSize, heading_sizes, List.lookup, h1, h2, h3, h4, h5, h6]

/-- Witness for C7: the fallback size at the concrete out-of-range levels
0 and 7. -/
theorem headingFontSize_fallback_witness :
    headingFontSize 0 = 12 ∧ headingFontSize 7 = 12 :=
  ⟨headingFontSize_fallback 0 (Or.inl (by decide)),
   headingFontSize_fallback 7 (Or.inr (by decide))⟩

/-- Claim C8: if the document write fails, `generate_pdf` does not
propagate the failure when the destination still accepts the fixed
two-line fallback document — it writes that document to the same path and
returns the path; only a failure of the fallback write itself (an
unwritable destination) propagates to the caller. -/
theorem generate_pdf_recovers (out : List String → Except String Unit)
    (doc : List String) (path : String) (e : String)
    (hfail : out doc = Except.error e) :
    (out fallbackLines = Except.ok () →
      generate_pdf out doc path = Except.ok (path, fallbackLines) ∧
      fallbackLines.length = 2) ∧
    (∀ e2, out fallbackLines = Except.error e2 →
      generate_pdf out doc path = Except.error e2) := by
  constructor
  · intro hok
    rw [generate_pdf, hfail, hok]
    exact ⟨rfl, rfl⟩
  · intro e2 h2
    rw [generate_pdf, hfail, h2]

/-- Witness for C8: a backend that rejects the document `["body"]` for a
content reason but accepts the fallback document. -/
theorem generate_pdf_recovers_witness :
    outContentBad ["body"] = Except.error "content" ∧
    (generate_pdf outContentBad ["body"] "out.pdf" =
        Except.ok ("out.pdf", fallbackLines) ∧
      fallbackLines.length = 2) :=
  ⟨rfl, (generate_pdf_recovers outContentBad ["body"] "out.pdf" "content" rfl).1 rfl⟩

/-! ## Plain-text extraction (claim C6) -/

lemma linesOf_ne_nil (cs : List Char) : linesOf cs ≠ [] := by
  cases cs with
  | nil => simp [linesOf]
  | cons c cs' =>
    rw [linesOf]
    by_cases h : c = '\n'
    · simp [h]
    · rw [if_neg h]
      rcases hl : linesOf cs' with _ | ⟨l, ls⟩ <;> simp

lemma splitLines_ne_nil (s : String) : splitLines s ≠ [] := by
  rw [splitLines]
  simp [linesOf_ne_nil]

lemma foldl_plainText (lines : List String) (st : MDStructure)
    (cp li : List String)
    (h : ∀ l ∈ lines, pyStrip l ≠ "" ∧
      pyStartsWith (pyStrip l) "#" = false ∧
      pyStartsWith (pyStrip l) "- " = false ∧
      pyStartsWith (pyStrip l) "* " = false ∧
      pyStartsWith (pyStrip l) "+ " = false) :
    lines.foldl extractStep (st, cp, false, li) =
      (st, cp ++ lines.map pyStrip, false, li) := by
  induction lines generalizing cp with
  | nil => simp
  | cons l ls ih =>
    obtain ⟨h1, h2, h3, h4, h5⟩ := h l (by simp)
    have hstep : extractStep (st, cp, false, li) l =
        (st, cp ++ [pyStrip l], false, li) := by
      simp [extractStep, h1, h2, h3, h4, h5]
    rw [List.foldl_cons, hstep,
      ih _ (fun x hx => h x (List.mem_cons_of_mem _ hx))]
    simp

/-- Claim C6: when every (trimmed) input line is non-empty and starts
neither a heading nor a list item, extraction yields no headings, no
lists, and exactly one paragraph whose text is the individually trimmed
lines joined with single spaces. -/
theorem extract_structure_plain_text (t : String)
    (h : ∀ l ∈ splitLines t, pyStrip l ≠ "" ∧
      pyStartsWith (pyStrip l) "#" = false ∧
      pyStartsWith (pyStrip l) "- " = false ∧
      pyStartsWith (pyStrip l) "* " = false ∧
      pyStartsWith (pyStrip l) "+ " = false) :
    extract_structure t = ⟨[], [joinSpace ((splitLines t).map pyStrip)], []⟩ := by
  rw [extract_structure, foldl_plainText _ _ _ _ h]
  rcases hl : splitLines t with _ | ⟨l, ls⟩
  · exact absurd hl (splitLines_ne_nil t)
  · simp

/-- Witness for C6 at the concrete input `"hello\nworld"`. -/
theorem extract_structure_plain_text_witness :
    (∀ l ∈ splitLines "hello\nworld", pyStrip l ≠ "" ∧
      pyStartsWith (pyStrip l) "#" = false ∧
      pyStartsWith (pyStrip l) "- " = false ∧
      pyStartsWith (pyStrip l) "* " = false ∧
      pyStartsWith (pyStrip l) "+ " = false) ∧
    extract_structure "hello\nworld" =
      ⟨[], [joinSpace ((splitLines "hello\nworld").map pyStrip)], []⟩ :=
  ⟨by decide, extract_structure_plain_text "hello\nworld" (by decide)⟩

/-! ## Non-empty blocks (claim C10) -/

lemma joinSpace_ne_empty : ∀ (cp : List String), cp ≠ [] →
    (∀ c ∈ cp, c ≠ "") → joinSpace cp ≠ ""
  | [], h, _ => absurd rfl h
  | [c], _, h => by simpa [joinSpace] using h c (by simp)
  | c :: d :: rest, _, h => by
    rw [joinSpace]
    · intro hcontra
      rw [String.ext_iff] at hcontra
      simp [String.data_append] at hcontra
    · simp

lemma extractStep_inv (acc : MDStructure × List String × Bool × List String)
    (line : String) (h : InvAcc acc) : InvAcc (extractStep acc line) := by
  obtain ⟨st, cp, il, li⟩ := acc
  obtain ⟨hL, hP, hC, hI⟩ := h
  have hjoin : ¬ cp = [] → joinSpace cp ≠ "" :=
    fun hne => joinSpace_ne_empty cp hne hC
  rw [extractStep]
  simp only [List.isEmpty_iff]
  split_ifs with h1 hcp hil h2 hcp h3 hcp hil hil hcp <;>
    refine ⟨?_, ?_, ?_, ?_⟩ <;>
      first
        | (simp; done)
        | assumption
        | (simp only [List.mem_append, List.mem_singleton]
           rintro x (hx | rfl) <;>
             first
               | exact hL _ hx
               | exact hP _ hx
               | exact hC _ hx
               | simp_all)

lemma foldl_inv (lines : List String)
    (acc : MDStructure × List String × Bool × List String)
    (h : InvAcc acc) : InvAcc (lines.foldl extractStep acc) := by
  induction lines generalizing acc with
  | nil => exact h
  | cons l ls ih => exact ih _ (extractStep_inv _ _ h)

lemma all_not_isEmpty_of_forall (L : List (List String))
    (h : ∀ l ∈ L, l ≠ []) : (L.all fun l => !l.isEmpty) = true := by
  rw [List.all_eq_true]
  intro l hl
  simpa [List.isEmpty_iff] using h l hl

lemma all_not_empty_of_forall (P : List String)
    (h : ∀ p ∈ P, p ≠ "") : (P.all fun p => !(p == "")) = true := by
  rw [List.all_eq_true]
  intro p hp
  simpa using h p hp

lemma forall_mem_append_singleton {α : Type} {Q : α → Prop} {l : List α}
    {x : α} (hl : ∀ a ∈ l, Q a) (hx : Q x) : ∀ a ∈ l ++ [x], Q a := by
  intro a ha
  rcases List.mem_append.mp ha with h | h
  · exact hl a h
  · rw [List.mem_singleton.mp h]
    exact hx

/-- Claim C10: for every input, every list emitted by `extract_structure`
has at least one item and every emitted paragraph text is non-empty. -/
theorem extract_structure_no_empty_blocks (t : String) :
    ((extract_structure t).lists.all fun l => !l.isEmpty) = true ∧
    ((extract_structure t).paragraphs.all fun p => !(p == "")) = true := by
  have hinv := foldl_inv (splitLines t) (⟨[], [], []⟩, [], false, [])
    ⟨by simp, by simp, by simp, by simp⟩
  rw [extract_structure]
  rcases hres : (splitLines t).foldl extractStep (⟨[], [], []⟩, [], false, [])
    with ⟨st, cp, il, li⟩
  rw [hres] at hinv
  obtain ⟨hL, hP, hC, hI⟩ := hinv
  have hjoin : ¬ cp = [] → joinSpace cp ≠ "" :=
    fun hne => joinSpace_ne_empty cp hne hC
  simp only [List.isEmpty_iff]
  split_ifs with hil hcp hcp <;>
    constructor <;>
      first
        | (exact all_not_isEmpty_of_forall _ hL)
        | (exact all_not_empty_of_forall _ hP)
        | (exact all_not_isEmpty_of_forall _
            (forall_mem_append_singleton hL (hI hil)))
        | (exact all_not_empty_of_forall _
            (forall_mem_append_singleton hP (hjoin hcp)))

/-! ## Grouping simulation (claims C1 and C2) -/

@[simp] lemma headingsOf_nil : headingsOf [] = [] := rfl
@[simp] lemma parasOf_nil : parasOf [] = [] := rfl
@[simp] lemma listsOf_nil : listsOf [] = [] := rfl

@[simp] lemma headingsOf_append (a b : List Block) :
    headingsOf (a ++ b) = headingsOf a ++ headingsOf b :=
  List.filterMap_append a b _

@[simp] lemma parasOf_append (a b : List Block) :
    parasOf (a ++ b) = parasOf a ++ parasOf b :=
  List.filterMap_append a b _

@[simp] lemma listsOf_append (a b : List Block) :
    listsOf (a ++ b) = listsOf a ++ listsOf b :=
  List.filterMap_append a b _

@[simp] lemma headingsOf_cons_heading (l : Nat) (t : String) (bs : List Block) :
    headingsOf (Block.heading l t :: bs) = (l, t) :: headingsOf bs := rfl
@[simp] lemma headingsOf_cons_paragraph (t : String) (bs : List Block) :
    headingsOf (Block.paragraph t :: bs) = headingsOf bs := rfl
@[simp] lemma headingsOf_cons_list (li : List String) (bs : List Block) :
    headingsOf (Block.list li :: bs) = headingsOf bs := rfl
@[simp] lemma parasOf_cons_heading (l : Nat) (t : String) (bs : List Block) :
    parasOf (Block.heading l t :: bs) = parasOf bs := rfl
@[simp] lemma parasOf_cons_paragraph (t : String) (bs : List Block) :
    parasOf (Block.paragraph t :: bs) = t :: parasOf bs := rfl
@[simp] lemma parasOf_cons_list (li : List String) (bs : List Block) :
    parasOf (Block.list li :: bs) = parasOf bs := rfl
@[simp] lemma listsOf_cons_heading (l : Nat) (t : String) (bs : List Block) :
    listsOf (Block.heading l t :: bs) = listsOf bs := rfl
@[simp] lemma listsOf_cons_paragraph (t : String) (bs : List Block) :
    listsOf (Block.paragraph t :: bs) = listsOf bs := rfl
@[simp] lemma listsOf_cons_list (li : List String) (bs : List Block) :
    listsOf (Block.list li :: bs) = li :: listsOf bs := rfl

lemma extractStep_mapAcc (s : List Block × List String × Bool × List String)
    (line : String) :
    extractStep (mapAcc s) line = mapAcc (specStep s line) := by
  obtain ⟨bs, cp, il, li⟩ := s
  rw [extractStep, specStep]
  simp only [mapAcc]
  split_ifs <;> simp [groupStructure]

lemma foldl_mapAcc (lines : List String)
    (s : List Block × List String × Bool × List String) :
    lines.foldl extractStep (mapAcc s) = mapAcc (lines.foldl specStep s) := by
  induction lines generalizing s with
  | nil => rfl
  | cons l ls ih => rw [List.foldl_cons, List.foldl_cons, extractStep_mapAcc, ih]

/-- The implementation's grouped dictionary is exactly the by-kind grouping
of the specification's ordered block sequence. -/
lemma extract_structure_eq_group (t : String) :
    extract_structure t = groupStructure (specOrderedExtract t) := by
  rw [extract_structure, specOrderedExtract]
  have h := foldl_mapAcc (splitLines t) ([], [], false, [])
  have hinit : mapAcc ([], [], false, []) = ((⟨[], [], []⟩ : MDStructure), [], false, []) := rfl
  rw [hinit] at h
  rw [h]
  rcases (splitLines t).foldl specStep ([], [], false, []) with ⟨bs, cp, il, li⟩
  simp only [mapAcc]
  split_ifs <;> simp [groupStructure]

lemma headingsOf_map_filter (bs : List Block) :
    (headingsOf bs).map (fun h => Block.heading h.1 h.2) = bs.filter isHeadingBlock := by
  induction bs with
  | nil => rfl
  | cons b bs ih => cases b <;> simp [isHeadingBlock, List.filter, ih]

lemma parasOf_map_filter (bs : List Block) :
    (parasOf bs).map Block.paragraph = bs.filter isParagraphBlock := by
  induction bs with
  | nil => rfl
  | cons b bs ih => cases b <;> simp [isParagraphBlock, List.filter, ih]

lemma listsOf_map_filter (bs : List Block) :
    (listsOf bs).map Block.list = bs.filter isListBlock := by
  induction bs with
  | nil => rfl
  | cons b bs ih => cases b <;> simp [isListBlock, List.filter, ih]

/-- Claim C2 (amended): `add_content_from_structure` replays every block of
the source-ordered sequence exactly once, but grouped by kind — all
headings in source order, then all paragraphs, then all lists. -/
theorem add_content_grouped_by_kind (t : String) :
    add_content_from_structure (extract_structure t) =
      (specOrderedExtract t).filter isHeadingBlock
        ++ (specOrderedExtract t).filter isParagraphBlock
        ++ (specOrderedExtract t).filter isListBlock := by
  rw [extract_structure_eq_group, add_content_from_structure]
  simp only [groupStructure]
  rw [headingsOf_map_filter, parasOf_map_filter, listsOf_map_filter]
